import Mathlib

/-!
Verification development for the ai-password-tester repository.

The repository ships the React client (frontend/src/App.js) and an
administrator instructions document. The backend components named by the
design document (Masker, HeuristicScorer, AIAnalyzer, AnalysisOrchestrator,
DualStore, AdminAuthGate) are not present in the source tree, so they are
modelled here from the design document; the client-side behaviour
(session-id generation, the analyze guard, history clearing, request
emission) is embedded directly from App.js.
-/

namespace PasswordTester

/-- Strength level category of an analysis result. -/
inductive StrengthLevel where
  | weak
  | moderate
  | strong
deriving DecidableEq, Repr

/-- Modelled from the spec: the fixed threshold function deriving the
strength level from the strength score (score below 40 is weak, 40 to 74
moderate, 75 and above strong). The backend scorer is not in the source
tree. -/
def strengthLevelOf (s : Int) : StrengthLevel :=
  if s < 40 then .weak
  else if s ≤ 74 then .moderate
  else .strong

/-- Modelled from the spec: the canonical analysis result shape shared by
the heuristic and the AI analysis paths. -/
structure AnalysisResult where
  strength_score : Int
  strength_level : StrengthLevel
  weaknesses : List String
  suggestions : List String
  crack_time : List (String × String)
  explanation : String
deriving DecidableEq, Repr

/-- Modelled from the spec: the fixed crack-time key set that every
analysis result carries. -/
def crackTimeKeys : List String := ["online", "offline_fast", "offline_slow"]

/-! ## Masker (modelled from the spec; the Masker component is not in the
source tree, only a masked example appears in the admin document). -/

/-- The fixed mask character used for interior characters. -/
def maskChar : Char := '*'

/-- Modelled from the spec: masks every character of the tail except the
last one, which is revealed. -/
def maskTail : List Char → List Char
  | [] => []
  | [d] => [d]
  | _ :: d :: ds => maskChar :: maskTail (d :: ds)

/-- Modelled from the spec: the Masker. Reveals the first character, masks
every interior character, reveals the last character when the length
exceeds one; a single character becomes a single mask character; the empty
string stays empty. -/
def mask (raw : String) : String :=
  match raw.toList with
  | [] => ""
  | [_] => String.mk [maskChar]
  | c :: rest => String.mk (c :: maskTail rest)

/-! ## HeuristicScorer (modelled from the spec; not in the source tree). -/

def hasLower (l : List Char) : Bool := l.any Char.isLower
def hasUpper (l : List Char) : Bool := l.any Char.isUpper
def hasDigit (l : List Char) : Bool := l.any Char.isDigit
def hasSymbol (l : List Char) : Bool := l.any (fun c => !c.isAlphanum)

/-- Modelled from the spec: the small common-password dictionary consulted
by the heuristic scorer. -/
def commonPasswords : List String :=
  ["password", "123456", "12345678", "qwerty", "abc123",
   "password123", "letmein", "admin"]

def isCommon (raw : String) : Bool := commonPasswords.contains raw.toLower

/-- Detects a run of three consecutively increasing character codes. -/
def hasSeqTriple : List Char → Bool
  | a :: b :: c :: rest =>
      (b.toNat == a.toNat + 1 && c.toNat == b.toNat + 1)
        || hasSeqTriple (b :: c :: rest)
  | _ => false

/-- Detects a run of three identical characters. -/
def hasRepTriple : List Char → Bool
  | a :: b :: c :: rest => (a == b && b == c) || hasRepTriple (b :: c :: rest)
  | _ => false

/-- Modelled from the spec: weaknesses listed in detection order. -/
def weaknessesOf (raw : String) : List String :=
  let l := raw.toList
  (if raw.length < 8 then ["too short"] else []) ++
  (if isCommon raw then ["common password"] else []) ++
  (if hasSeqTriple l then ["sequential characters"] else []) ++
  (if hasRepTriple l then ["repeated characters"] else []) ++
  (if hasLower l then [] else ["no lowercase letters"]) ++
  (if hasUpper l then [] else ["no uppercase letters"]) ++
  (if hasDigit l then [] else ["no digit characters"]) ++
  (if hasSymbol l then [] else ["no symbol characters"])

/-- Modelled from the spec: suggestions as direct counter-measures to each
detected weakness, in the same order. -/
def suggestionsOf (raw : String) : List String :=
  let l := raw.toList
  (if raw.length < 8 then ["use at least 8 characters"] else []) ++
  (if isCommon raw then ["avoid common passwords"] else []) ++
  (if hasSeqTriple l then ["avoid sequential characters"] else []) ++
  (if hasRepTriple l then ["avoid repeated characters"] else []) ++
  (if hasLower l then [] else ["add lowercase letters"]) ++
  (if hasUpper l then [] else ["add uppercase letters"]) ++
  (if hasDigit l then [] else ["add at least one digit"]) ++
  (if hasSymbol l then [] else ["add at least one symbol"])

/-- Modelled from the spec: raw additive score before clamping; length is
rewarded up to a cap, each character class present adds a bonus, detected
patterns are penalized. -/
def rawScore (raw : String) : Int :=
  let l := raw.toList
  let lenScore : Int := min (4 * (raw.length : Int)) 40
  let classScore : Int :=
    (if hasLower l then 15 else 0) + (if hasUpper l then 15 else 0) +
    (if hasDigit l then 15 else 0) + (if hasSymbol l then 15 else 0)
  let penalty : Int :=
    (if isCommon raw then 30 else 0) + (if hasSeqTriple l then 10 else 0) +
    (if hasRepTriple l then 10 else 0)
  lenScore + classScore - penalty

/-- Modelled from the spec: the final score is clamped into the documented
interval from 0 to 100. -/
def clampScore (s : Int) : Int := max 0 (min 100 s)

/-- Alphabet size implied by the character classes used. -/
def alphabetSizeOf (raw : String) : Nat :=
  let l := raw.toList
  (if hasLower l then 26 else 0) + (if hasUpper l then 26 else 0) +
  (if hasDigit l then 10 else 0) + (if hasSymbol l then 32 else 0)

/-- Effective keyspace: implied alphabet size raised to the length. -/
def keyspace (raw : String) : Nat := (max 1 (alphabetSizeOf raw)) ^ raw.length

/-- Guesses-per-second rate for the throttled online method. -/
def onlineRate : Nat := 100
/-- Guesses-per-second rate for the slow offline method. -/
def offlineSlowRate : Nat := 10000
/-- Guesses-per-second rate for the fast offline method. -/
def offlineFastRate : Nat := 10000000000

/-- Modelled from the spec: format a duration in seconds into a
human-readable string, saturating to centuries beyond a cutoff. -/
def formatDuration (s : Nat) : String :=
  if s < 60 then Nat.repr s ++ " seconds"
  else if s < 3600 then Nat.repr (s / 60) ++ " minutes"
  else if s < 86400 then Nat.repr (s / 3600) ++ " hours"
  else if s < 31536000 then Nat.repr (s / 86400) ++ " days"
  else if s < 3153600000 then Nat.repr (s / 31536000) ++ " years"
  else "centuries"

/-- Modelled from the spec: the heuristic crack-time estimate for one
attack method key. -/
def heurCrackTime (raw : String) (k : String) : String :=
  if k = "online" then formatDuration (keyspace raw / onlineRate)
  else if k = "offline_slow" then formatDuration (keyspace raw / offlineSlowRate)
  else if k = "offline_fast" then formatDuration (keyspace raw / offlineFastRate)
  else ""

/-- Modelled from the spec: templated one-paragraph summary referencing the
dominant weakness. -/
def explanationOf (raw : String) : String :=
  match weaknessesOf raw with
  | [] => "This password shows no detected weaknesses."
  | w :: _ => "The dominant weakness is " ++ w ++ "."

/-- Modelled from the spec: the HeuristicScorer. Always succeeds, no
external calls; score clamped to the documented interval, level derived
from the score via the fixed thresholds, crack-time map built over the
fixed key set. -/
def heuristicScore (raw : String) : AnalysisResult :=
  let sc := clampScore (rawScore raw)
  { strength_score := sc
    strength_level := strengthLevelOf sc
    weaknesses := weaknessesOf raw
    suggestions := suggestionsOf raw
    crack_time := crackTimeKeys.map (fun k => (k, heurCrackTime raw k))
    explanation := explanationOf raw }

/-! ## AIAnalyzer and AnalysisOrchestrator (modelled from the spec; not in
the source tree). The outcome of the external call is passed in as data. -/

/-- Failure modes of the external analysis capability. -/
inductive AIFailure where
  | timeout
  | unparseable
  | authFailure
deriving DecidableEq, Repr

/-- Modelled from the spec: the loosely-typed response of the external
analysis capability before normalization; list fields may be missing and
the crack-time map may have missing or extra keys. -/
structure AIResponse where
  score : Int
  weaknesses : Option (List String)
  suggestions : Option (List String)
  crack_time : List (String × String)
  explanation : Option String
deriving DecidableEq, Repr

/-- Modelled from the spec: the strict normalization boundary of the
AIAnalyzer. Clamps the numeric score, recomputes the level from the score,
defaults missing list fields to empty, and fills missing crack-time keys
from the heuristic estimate for the same password so the full fixed key
set is always present. -/
def normalize (resp : AIResponse) (raw : String) : AnalysisResult :=
  let sc := clampScore resp.score
  { strength_score := sc
    strength_level := strengthLevelOf sc
    weaknesses := resp.weaknesses.getD []
    suggestions := resp.suggestions.getD []
    crack_time :=
      crackTimeKeys.map
        (fun k => (k, (resp.crack_time.lookup k).getD (heurCrackTime raw k)))
    explanation := resp.explanation.getD "" }

/-- The only locally fatal orchestrator error. -/
inductive OrchError where
  | invalidInput
deriving DecidableEq, Repr

/-- Modelled from the spec: the heuristic fallback result with its
explanation tagged as heuristic-derived. -/
def tagHeuristic (raw : String) : AnalysisResult :=
  let h := heuristicScore raw
  { h with explanation := "[heuristic] " ++ h.explanation }

/-- Modelled from the spec: the AnalysisOrchestrator. Rejects an empty
password with the invalid-input error; otherwise normalizes the AI
response when the external call succeeded and falls back to the heuristic
scorer when it failed, never propagating the external failure. -/
def run (raw : String) (ai : Except AIFailure AIResponse) :
    Except OrchError AnalysisResult :=
  if raw = "" then .error .invalidInput
  else
    match ai with
    | .ok resp => .ok (normalize resp raw)
    | .error _ => .ok (tagHeuristic raw)

/-- A well-formed analysis result: score within bounds, level the fixed
function of the score, crack-time keys exactly the fixed set. -/
def wellFormedResult (r : AnalysisResult) : Prop :=
  0 ≤ r.strength_score ∧ r.strength_score ≤ 100 ∧
  r.strength_level = strengthLevelOf r.strength_score ∧
  r.crack_time.map Prod.fst = crackTimeKeys

/-! ## DualStore (modelled from the spec; not in the source tree). -/

/-- User-visible persisted record; carries the masked password only. -/
structure HistoryRecord where
  record_id : Nat
  session_id : String
  password_masked : String
  timestamp : Nat
  result : AnalysisResult
deriving DecidableEq, Repr

/-- Admin-only persisted record; carries the raw password. -/
structure AuditRecord where
  record_id : Nat
  session_id : String
  password_raw : String
  timestamp : Nat
  result : AnalysisResult
  client_ip : Option String
deriving DecidableEq, Repr

/-- The two backing collections; newest record at the head. -/
structure StoreState where
  history : List HistoryRecord
  audit : List AuditRecord
deriving DecidableEq, Repr

inductive PersistenceError where
  | auditWriteFailed
  | historyWriteFailed
deriving DecidableEq, Repr

def mkHistoryRecord (rid : Nat) (sid raw : String) (res : AnalysisResult)
    (ts : Nat) : HistoryRecord :=
  { record_id := rid, session_id := sid, password_masked := mask raw
    timestamp := ts, result := res }

def mkAuditRecord (rid : Nat) (sid raw : String) (res : AnalysisResult)
    (ts : Nat) (ip : Option String) : AuditRecord :=
  { record_id := rid, session_id := sid, password_raw := raw
    timestamp := ts, result := res, client_ip := ip }

namespace DualStore

/-- Modelled from the spec: the dual write. The AuditRecord is written
first and the HistoryRecord second; the two Booleans stand for the success
of the two underlying inserts. A failed audit insert aborts with nothing
written; a failed history insert after a successful audit insert is fatal
for the operation but does not roll back the audit record. -/
def write (st : StoreState) (sid raw : String) (res : AnalysisResult)
    (rid ts : Nat) (ip : Option String) (auditOk histOk : Bool) :
    StoreState × Except PersistenceError Nat :=
  if auditOk = false then (st, .error .auditWriteFailed)
  else
    let st1 : StoreState :=
      { st with audit := mkAuditRecord rid sid raw res ts ip :: st.audit }
    if histOk = false then (st1, .error .historyWriteFailed)
    else
      ({ st1 with
          history := mkHistoryRecord rid sid raw res ts :: st1.history },
        .ok rid)

/-- Modelled from the spec: session-scoped history retrieval, newest
first (the history list is kept newest first), limited. -/
def readHistory (st : StoreState) (sid : String) (lim : Nat) :
    List HistoryRecord :=
  (st.history.filter (fun r => r.session_id == sid)).take lim

end DualStore

/-- Every HistoryRecord has a paired AuditRecord with the same id. -/
def auditPaired (st : StoreState) : Prop :=
  ∀ h ∈ st.history, ∃ a ∈ st.audit, a.record_id = h.record_id

/-- Newest-first ordering on a history list by timestamp. -/
def newestFirst (l : List HistoryRecord) : Prop :=
  l.Pairwise (fun a b => b.timestamp ≤ a.timestamp)

/-- Name of a strength level as serialized. -/
def levelName : StrengthLevel → String
  | .weak => "weak"
  | .moderate => "moderate"
  | .strong => "strong"

/-- Serialized field list of a history record as returned by the history
endpoint; there is no raw-password field in a HistoryRecord. -/
def historyRecordFields (r : HistoryRecord) : List (String × String) :=
  [("record_id", Nat.repr r.record_id),
   ("session_id", r.session_id),
   ("password_masked", r.password_masked),
   ("timestamp", Nat.repr r.timestamp),
   ("strength_score", toString r.result.strength_score),
   ("strength_level", levelName r.result.strength_level),
   ("explanation", r.result.explanation)]

/-! ## AdminAuthGate (modelled from the spec and the admin instructions
document; the gate itself is not in the source tree). -/

/-- The configured admin username (admin instructions document). -/
def adminUsername : String := "admin"
/-- The configured admin password (admin instructions document). -/
def adminPassword : String := "secure_admin_2024!"

/-- Modelled from the spec: the AdminAuthGate. Missing credentials are
unauthorized; present credentials are authorized exactly when both fields
equal the configured pair. -/
def authorize (creds : Option (String × String)) : Bool :=
  match creds with
  | none => false
  | some (u, p) => u == adminUsername && p == adminPassword

/-! ## Client (embedded from frontend/src/App.js). -/

/-- JavaScript substr: up to len characters starting at index start. -/
def jsSubstr (s : String) (start len : Nat) : String :=
  String.mk ((s.toList.drop start).take len)

/-- Whitespace characters removed by the JavaScript trim call. -/
def jsWhitespace (c : Char) : Bool :=
  c == ' ' || c == '\t' || c == '\n' || c == '\r' ||
  c == Char.ofNat 11 || c == Char.ofNat 12

/-- JavaScript String.prototype.trim on the modelled whitespace set. -/
def jsTrim (s : String) : String :=
  String.mk
    (((s.toList.dropWhile jsWhitespace).reverse.dropWhile jsWhitespace).reverse)

/-- Embedded from App.js generateSessionId: the session id is the literal
prefix, the millisecond timestamp, an underscore, and up to nine
characters of the base-36 rendering of the random number starting at index
2 (past the leading zero and dot). The rendering of the random number is
passed in as the string the JavaScript toString call produced. -/
def generateSessionId (ts : Nat) (randStr : String) : String :=
  "session_" ++ Nat.repr ts ++ "_" ++ jsSubstr randStr 2 9

/-- A network request the client can issue. -/
inductive Request where
  | analyze (password sid : String)
  | historyGet (sid : String)
deriving DecidableEq, Repr

/-- Session id carried by a request. -/
def requestSid : Request → String
  | .analyze _ sid => sid
  | .historyGet sid => sid

/-- Client-side React state of App.js. -/
structure ClientState where
  password : String
  analysis : Option AnalysisResult
  history : List HistoryRecord
  loading : Bool
  sessionId : String
  showPassword : Bool
deriving DecidableEq, Repr

/-- Embedded from App.js: mounting the page generates the session id once
and the history-loading effect issues one history request for it. -/
def mount (ts : Nat) (randStr : String) : ClientState × List Request :=
  let sid := generateSessionId ts randStr
  ({ password := "", analysis := none, history := [], loading := false
     sessionId := sid, showPassword := false },
   [Request.historyGet sid])

/-- Embedded from App.js clearHistory: resets the cached history list and
the displayed analysis, and issues no network request. -/
def clearHistory (s : ClientState) : ClientState × List Request :=
  ({ s with history := [], analysis := none }, [])

/-- Events the client reacts to. -/
inductive ClientEvent where
  | setPassword (p : String)
  | analyzeClick
  | analyzeOk (r : AnalysisResult)
  | analyzeErr
  | historyOk (hs : List HistoryRecord)
  | clearClick
  | toggleShow
deriving Repr

/-- Embedded from App.js: the state transition and requests issued for
each client event. The analyze click is guarded by the trim check and
otherwise sets loading and posts the password with the session id; a
successful analyze response stores the result and refreshes history. -/
def clientStep (s : ClientState) : ClientEvent → ClientState × List Request
  | .setPassword p => ({ s with password := p }, [])
  | .analyzeClick =>
      if jsTrim s.password = "" then (s, [])
      else ({ s with loading := true },
            [Request.analyze s.password s.sessionId])
  | .analyzeOk r =>
      ({ s with analysis := some r, loading := false },
       [Request.historyGet s.sessionId])
  | .analyzeErr => ({ s with loading := false }, [])
  | .historyOk hs => ({ s with history := hs }, [])
  | .clearClick => clearHistory s
  | .toggleShow => ({ s with showPassword := !s.showPassword }, [])

/-- Fresh record id for the modelled server. -/
def freshId (st : StoreState) : Nat := st.history.length + st.audit.length + 1

/-- Modelled from the spec: the server reaction to one client request; an
analyze request runs the pipeline and performs the dual write, a history
request reads and changes nothing. -/
def serverHandle (st : StoreState) : Request → StoreState
  | .analyze p sid =>
      (DualStore.write st sid p (heuristicScore p) (freshId st) 0 none
        true true).1
  | .historyGet _ => st

/-- Applies a list of client requests to the store in order. -/
def processRequests (st : StoreState) : List Request → StoreState
  | [] => st
  | r :: rs => processRequests (serverHandle st r) rs

/-! ## Helper lemmas -/

/-- Masking the tail of a nonempty list masks all but the last element. -/
theorem maskTail_append (d : Char) :
    ∀ ds : List Char,
      maskTail (ds ++ [d]) = List.replicate ds.length maskChar ++ [d] := by
  intro ds
  induction ds with
  | nil => rfl
  | cons a ds ih =>
    cases ds with
    | nil => rfl
    | cons b bs =>
      show maskChar :: maskTail ((b :: bs) ++ [d]) = _
      rw [ih]
      rfl

theorem clampScore_nonneg (s : Int) : 0 ≤ clampScore s := le_max_left 0 _

theorem clampScore_le (s : Int) : clampScore s ≤ 100 :=
  max_le (by norm_num) (min_le_left 100 s)

/-- Mapping first projections over a keyed map recovers the key list. -/
theorem map_fst_keyed (f : String → String) (keys : List String) :
    (keys.map (fun k => (k, f k))).map Prod.fst = keys := by
  induction keys with
  | nil => rfl
  | cons a r ih => simp [ih]

/-- Lookup in a keyed map built over a key list. -/
theorem lookup_map_keys (g : String → String) :
    ∀ (keys : List String) (k : String), k ∈ keys →
      (keys.map (fun k => (k, g k))).lookup k = some (g k) := by
  intro keys
  induction keys with
  | nil => intro k h; cases h
  | cons a rest ih =>
    intro k h
    rcases List.mem_cons.mp h with rfl | h2
    · simp [List.lookup]
    · by_cases hk : k = a
      · subst hk; simp [List.lookup]
      · have hba : (k == a) = false := by simp [hk]
        simp [List.lookup, hba]
        exact ih k h2

theorem wellFormedResult_normalize (resp : AIResponse) (raw : String) :
    wellFormedResult (normalize resp raw) :=
  ⟨clampScore_nonneg _, clampScore_le _, rfl, map_fst_keyed _ _⟩

theorem wellFormedResult_tagHeuristic (raw : String) :
    wellFormedResult (tagHeuristic raw) :=
  ⟨clampScore_nonneg _, clampScore_le _, rfl, map_fst_keyed _ _⟩

/-! ## Claim theorems -/

/-- Claim C3: mask is deterministic and total; the empty string maps to
the empty string, a single character maps to a single mask character, and
a string of length greater than one keeps its first and last characters
and has every interior character replaced by the fixed mask character.
Determinism and totality hold because mask is a total function of its
argument. -/
theorem mask_spec :
    mask "" = "" ∧
    (∀ c : Char, mask (String.mk [c]) = String.mk [maskChar]) ∧
    (∀ (c d : Char) (ds : List Char),
      mask (String.mk (c :: (ds ++ [d]))) =
        String.mk (c :: (List.replicate ds.length maskChar ++ [d]))) := by
  refine ⟨rfl, fun c => rfl, fun c d ds => ?_⟩
  cases ds with
  | nil => rfl
  | cons b bs =>
    show String.mk (c :: maskTail ((b :: bs) ++ [d])) = _
    rw [maskTail_append]

/-- Claim C7: authorize returns true exactly on the configured
username/password pair and returns false on every other input, including
missing credentials, the empty pair, the swapped pair, and pairs with only
one matching field; it never throws because it is a total function. -/
theorem authorize_spec :
    ∀ creds : Option (String × String),
      (authorize creds = true ↔ creds = some (adminUsername, adminPassword)) ∧
      authorize none = false ∧
      authorize (some ("", "")) = false ∧
      authorize (some (adminPassword, adminUsername)) = false ∧
      authorize (some (adminUsername, "")) = false ∧
      authorize (some ("", adminPassword)) = false := by
  intro creds
  refine ⟨?_, by decide, by decide, by decide, by decide, by decide⟩
  cases creds with
  | none => simp [authorize]
  | some up =>
    obtain ⟨u, p⟩ := up
    simp [authorize]

/-- Claim C7 witness: the exact configured pair is authorized. -/
theorem authorize_spec_witness :
    authorize (some (adminUsername, adminPassword)) = true :=
  (authorize_spec (some (adminUsername, adminPassword))).1.mpr rfl

/-- Claim C4: on every path, the strength score lies between 0 and 100 and
the strength level equals the fixed threshold function of the score:
for the heuristic scorer, for the AI normalization boundary, and for any
result returned by the orchestrator. -/
theorem strength_score_level_invariant :
    ∀ (raw : String) (resp : AIResponse) (ai : Except AIFailure AIResponse)
      (res : AnalysisResult),
      (0 ≤ (heuristicScore raw).strength_score ∧
        (heuristicScore raw).strength_score ≤ 100 ∧
        (heuristicScore raw).strength_level =
          strengthLevelOf (heuristicScore raw).strength_score) ∧
      (0 ≤ (normalize resp raw).strength_score ∧
        (normalize resp raw).strength_score ≤ 100 ∧
        (normalize resp raw).strength_level =
          strengthLevelOf (normalize resp raw).strength_score) ∧
      (run raw ai = .ok res →
        0 ≤ res.strength_score ∧ res.strength_score ≤ 100 ∧
        res.strength_level = strengthLevelOf res.strength_score) := by
  intro raw resp ai res
  refine ⟨⟨clampScore_nonneg _, clampScore_le _, rfl⟩,
    ⟨clampScore_nonneg _, clampScore_le _, rfl⟩, ?_⟩
  intro h
  unfold run at h
  by_cases hraw : raw = ""
  · simp [hraw] at h
  · simp [hraw] at h
    cases ai with
    | ok r =>
      simp at h
      rw [← h]
      exact ⟨clampScore_nonneg _, clampScore_le _, rfl⟩
    | error e =>
      simp at h
      rw [← h]
      exact ⟨clampScore_nonneg _, clampScore_le _, rfl⟩

/-- Sample AI response used by concrete witnesses. -/
def sampleResp : AIResponse :=
  { score := 50, weaknesses := none, suggestions := none
    crack_time := [], explanation := none }

/-- Claim C4 witness: the orchestrator result for a concrete password with
a failing external call satisfies the score and level invariant. -/
theorem strength_score_level_invariant_witness :
    0 ≤ (tagHeuristic "a").strength_score ∧
    (tagHeuristic "a").strength_score ≤ 100 ∧
    (tagHeuristic "a").strength_level =
      strengthLevelOf (tagHeuristic "a").strength_score :=
  (strength_score_level_invariant "a" sampleResp (.error .timeout)
    (tagHeuristic "a")).2.2 rfl

/-- Claim C5: the orchestrator fails with the invalid-input error exactly
when the password is empty; no other error is ever returned, and on a
nonempty password it always returns a well-formed result whatever the
outcome of the external call, so an external failure is never observable
through the result shape. -/
theorem run_error_spec :
    ∀ (raw : String) (ai : Except AIFailure AIResponse),
      (run raw ai = .error .invalidInput ↔ raw = "") ∧
      (∀ e, run raw ai = .error e → e = .invalidInput) ∧
      (raw ≠ "" → ∃ res, run raw ai = .ok res ∧ wellFormedResult res) := by
  intro raw ai
  by_cases hraw : raw = ""
  · subst hraw
    refine ⟨by simp [run], ?_, by simp⟩
    intro e h
    cases e
    rfl
  · refine ⟨?_, ?_, ?_⟩
    · simp only [run, if_neg hraw]
      cases ai with
      | ok r => simp [hraw]
      | error e => simp [hraw]
    · intro e h
      simp only [run, if_neg hraw] at h
      cases ai with
      | ok r => simp at h
      | error e2 => simp at h
    · intro _
      simp only [run, if_neg hraw]
      cases ai with
      | ok r => exact ⟨normalize r raw, rfl, wellFormedResult_normalize r raw⟩
      | error e => exact ⟨tagHeuristic raw, rfl, wellFormedResult_tagHeuristic raw⟩

/-- Claim C5 witness: for a concrete nonempty password and a timed-out
external call the orchestrator returns a well-formed result. -/
theorem run_error_spec_witness :
    ∃ res, run "a" (.error .timeout) = .ok res ∧ wellFormedResult res :=
  (run_error_spec "a" (.error .timeout)).2.2 (by decide)

/-- Claim C6: both analysis paths produce a crack-time map whose key list
is exactly the fixed key set, the orchestrator result always carries the
fixed key set, and a key missing from the external response is filled with
the heuristic estimate for the same password. -/
theorem crack_time_keys_spec :
    ∀ (raw : String) (resp : AIResponse) (ai : Except AIFailure AIResponse)
      (res : AnalysisResult) (k : String),
      (heuristicScore raw).crack_time.map Prod.fst = crackTimeKeys ∧
      (normalize resp raw).crack_time.map Prod.fst = crackTimeKeys ∧
      (run raw ai = .ok res → res.crack_time.map Prod.fst = crackTimeKeys) ∧
      (k ∈ crackTimeKeys → resp.crack_time.lookup k = none →
        (normalize resp raw).crack_time.lookup k =
          some (heurCrackTime raw k)) := by
  intro raw resp ai res k
  refine ⟨map_fst_keyed _ _, map_fst_keyed _ _, ?_, ?_⟩
  · intro h
    unfold run at h
    by_cases hraw : raw = ""
    · simp [hraw] at h
    · simp [hraw] at h
      cases ai with
      | ok r =>
        simp at h
        rw [← h]
        exact map_fst_keyed _ _
      | error e =>
        simp at h
        rw [← h]
        exact map_fst_keyed _ _
  · intro hk hnone
    have := lookup_map_keys
      (fun k => (resp.crack_time.lookup k).getD (heurCrackTime raw k))
      crackTimeKeys k hk
    simpa [normalize, hnone] using this

/-- Claim C6 witness: for a concrete password and an external response
with an empty crack-time map, the online key of the normalized result is
filled from the heuristic estimate, and the orchestrator result carries
the fixed key set. -/
theorem crack_time_keys_spec_witness :
    (normalize sampleResp "a").crack_time.lookup "online" =
      some (heurCrackTime "a" "online") ∧
    (tagHeuristic "a").crack_time.map Prod.fst = crackTimeKeys :=
  ⟨(crack_time_keys_spec "a" sampleResp (.error .timeout) (tagHeuristic "a")
      "online").2.2.2 (by decide) rfl,
   (crack_time_keys_spec "a" sampleResp (.error .timeout) (tagHeuristic "a")
      "online").2.2.1 rfl⟩

/-- Claim C1: a successful dual write creates exactly one HistoryRecord
and one AuditRecord, both sharing the requested record id, prepended to
the two collections; a failed audit insert writes nothing; a failed
history insert after a successful audit insert is fatal for the operation,
leaves the history collection unchanged and keeps the audit record (the
tolerated orphan, not rolled back); and the pairing invariant that every
HistoryRecord has an AuditRecord with the same record id is preserved by
every outcome of the write. -/
theorem dual_write_spec :
    ∀ (st : StoreState) (sid raw : String) (res : AnalysisResult)
      (rid ts : Nat) (ip : Option String) (auditOk histOk : Bool),
      (∀ rid2,
        (DualStore.write st sid raw res rid ts ip auditOk histOk).2 = .ok rid2 →
        rid2 = rid ∧
        (DualStore.write st sid raw res rid ts ip auditOk histOk).1.history =
          mkHistoryRecord rid sid raw res ts :: st.history ∧
        (DualStore.write st sid raw res rid ts ip auditOk histOk).1.audit =
          mkAuditRecord rid sid raw res ts ip :: st.audit) ∧
      (auditOk = false →
        DualStore.write st sid raw res rid ts ip auditOk histOk =
          (st, .error .auditWriteFailed)) ∧
      (auditOk = true → histOk = false →
        (DualStore.write st sid raw res rid ts ip auditOk histOk).2 =
          .error .historyWriteFailed ∧
        (DualStore.write st sid raw res rid ts ip auditOk histOk).1.history =
          st.history ∧
        (DualStore.write st sid raw res rid ts ip auditOk histOk).1.audit =
          mkAuditRecord rid sid raw res ts ip :: st.audit) ∧
      (auditPaired st →
        auditPaired (DualStore.write st sid raw res rid ts ip auditOk histOk).1) := by
  intro st sid raw res rid ts ip auditOk histOk
  cases auditOk with
  | false =>
    refine ⟨?_, fun _ => rfl, by simp, ?_⟩
    · intro rid2 h
      simp [DualStore.write] at h
    · intro hp
      exact hp
  | true =>
    cases histOk with
    | false =>
      refine ⟨?_, by simp, fun _ _ => ⟨rfl, rfl, rfl⟩, ?_⟩
      · intro rid2 h
        simp [DualStore.write] at h
      · intro hp h hmem
        obtain ⟨a, ha, hid⟩ := hp h hmem
        exact ⟨a, List.mem_cons_of_mem _ ha, hid⟩
    | true =>
      refine ⟨?_, by simp, by simp, ?_⟩
      · intro rid2 h
        simp [DualStore.write] at h
        exact ⟨h.symm, rfl, rfl⟩
      · intro hp h hmem
        rcases List.mem_cons.mp hmem with rfl | hmem2
        · exact ⟨mkAuditRecord rid sid raw res ts ip, List.mem_cons_self _ _, rfl⟩
        · obtain ⟨a, ha, hid⟩ := hp h hmem2
          exact ⟨a, List.mem_cons_of_mem _ ha, hid⟩

/-- Sample analysis result used by concrete witnesses. -/
def sampleResult : AnalysisResult :=
  { strength_score := 50, strength_level := .moderate, weaknesses := []
    suggestions := []
    crack_time :=
      [("online", "3 days"), ("offline_fast", "2 seconds"),
       ("offline_slow", "5 hours")]
    explanation := "" }

/-- Claim C1 witness: a successful dual write into the empty store creates
the paired records with the shared record id. -/
theorem dual_write_spec_witness :
    (1 : Nat) = 1 ∧
    (DualStore.write ⟨[], []⟩ "s" "pw" sampleResult 1 0 none true true).1.history =
      mkHistoryRecord 1 "s" "pw" sampleResult 0 :: [] ∧
    (DualStore.write ⟨[], []⟩ "s" "pw" sampleResult 1 0 none true true).1.audit =
      mkAuditRecord 1 "s" "pw" sampleResult 0 none :: [] :=
  (dual_write_spec ⟨[], []⟩ "s" "pw" sampleResult 1 0 none true true).1 1 rfl

/-- Claim C2: history retrieval returns only records of the requested
session, newest first when the stored history is newest first, each
returned record serializes with its password_masked field, and no returned
record serializes a password_raw field. -/
theorem read_history_spec :
    ∀ (st : StoreState) (sid : String) (lim : Nat),
      newestFirst st.history →
      newestFirst (DualStore.readHistory st sid lim) ∧
      ∀ r ∈ DualStore.readHistory st sid lim,
        r.session_id = sid ∧
        ("password_masked", r.password_masked) ∈ historyRecordFields r ∧
        "password_raw" ∉ (historyRecordFields r).map Prod.fst := by
  intro st sid lim hsort
  constructor
  · have hsub : List.Sublist (DualStore.readHistory st sid lim) st.history := by
      unfold DualStore.readHistory
      exact (List.take_sublist _ _).trans (List.filter_sublist _)
    exact hsort.sublist hsub
  · intro r hr
    have hrf : r ∈ st.history.filter (fun r2 => r2.session_id == sid) :=
      List.mem_of_mem_take hr
    have hsid := (List.mem_filter.mp hrf).2
    refine ⟨by simpa using hsid, by simp [historyRecordFields], ?_⟩
    intro hmem
    simp [historyRecordFields] at hmem

/-- Sample records and store used by concrete witnesses. -/
def sampleHist1 : HistoryRecord :=
  { record_id := 1, session_id := "s", password_masked := mask "pw1"
    timestamp := 1, result := sampleResult }

def sampleHist2 : HistoryRecord :=
  { record_id := 2, session_id := "s", password_masked := mask "pw2"
    timestamp := 2, result := sampleResult }

def sampleStore : StoreState :=
  { history := [sampleHist2, sampleHist1]
    audit := [mkAuditRecord 2 "s" "pw2" sampleResult 2 none,
              mkAuditRecord 1 "s" "pw1" sampleResult 1 none] }

/-- Claim C2 witness: in a concrete two-record store, a returned record
belongs to the session, serializes its masked password and serializes no
raw-password field. -/
theorem read_history_spec_witness :
    sampleHist2.session_id = "s" ∧
    ("password_masked", sampleHist2.password_masked) ∈
      historyRecordFields sampleHist2 ∧
    "password_raw" ∉ (historyRecordFields sampleHist2).map Prod.fst :=
  (read_history_spec sampleStore "s" 5
      (by simp [newestFirst, sampleStore, sampleHist1, sampleHist2])).2
    sampleHist2 (by decide)

/-- Claim C8: clearing history issues no network request, resets only the
cached history list and the displayed analysis, leaves every other client
field unchanged, and leaves both collections of any backing store
unchanged because the store changes only by processing requests. -/
theorem clear_history_spec :
    ∀ (s : ClientState) (st : StoreState),
      (clearHistory s).2 = [] ∧
      (clearHistory s).1.history = [] ∧
      (clearHistory s).1.analysis = none ∧
      (clearHistory s).1.password = s.password ∧
      (clearHistory s).1.loading = s.loading ∧
      (clearHistory s).1.sessionId = s.sessionId ∧
      processRequests st (clearHistory s).2 = st ∧
      (processRequests st (clearHistory s).2).history = st.history ∧
      (processRequests st (clearHistory s).2).audit = st.audit := by
  intro s st
  exact ⟨rfl, rfl, rfl, rfl, rfl, rfl, rfl, rfl, rfl⟩

/-- Claim C9: when the trimmed password is empty the analyze click issues
no request and leaves the whole client state, in particular the analysis,
the history and the loading flag, unchanged. -/
theorem analyze_guard_spec :
    ∀ s : ClientState, jsTrim s.password = "" →
      clientStep s .analyzeClick = (s, []) := by
  intro s h
  simp [clientStep, h]

/-- Client state with a whitespace-only password, for the guard witness. -/
def sampleClientWs : ClientState :=
  { password := "  ", analysis := none, history := [], loading := false
    sessionId := "sid", showPassword := false }

/-- Claim C9 witness: a whitespace-only password trims to empty and the
analyze click is a no-op on a concrete state. -/
theorem analyze_guard_spec_witness :
    jsTrim "  " = "" ∧ clientStep sampleClientWs .analyzeClick =
      (sampleClientWs, []) :=
  ⟨by decide, analyze_guard_spec sampleClientWs (by decide)⟩

/-- Claim C10 (amended): the session id is generated as the literal prefix
followed by the millisecond timestamp, an underscore, and a random base-36
suffix of at most nine characters; the mounted state carries exactly this
id, the mount-time history request carries it, no client event changes it,
and every request issued by a client step carries the stepped state's own
session id; the generator takes no password input. -/
theorem session_id_spec :
    ∀ (ts : Nat) (randStr : String) (s : ClientState) (e : ClientEvent)
      (r : Request),
      generateSessionId ts randStr =
        "session_" ++ Nat.repr ts ++ "_" ++ jsSubstr randStr 2 9 ∧
      (jsSubstr randStr 2 9).length ≤ 9 ∧
      (mount ts randStr).1.sessionId = generateSessionId ts randStr ∧
      (∀ rq ∈ (mount ts randStr).2,
        requestSid rq = generateSessionId ts randStr) ∧
      (clientStep s e).1.sessionId = s.sessionId ∧
      (r ∈ (clientStep s e).2 → requestSid r = s.sessionId) := by
  intro ts randStr s e r
  refine ⟨rfl, ?_, rfl, ?_, ?_, ?_⟩
  · have h1 : (jsSubstr randStr 2 9).length =
        ((randStr.toList.drop 2).take 9).length := rfl
    rw [h1, List.length_take]
    exact min_le_left _ _
  · intro rq hm
    simp [mount] at hm
    subst hm
    rfl
  · cases e with
    | analyzeClick =>
      by_cases h : jsTrim s.password = "" <;> simp [clientStep, h]
    | setPassword p => rfl
    | analyzeOk r2 => rfl
    | analyzeErr => rfl
    | historyOk hs => rfl
    | clearClick => rfl
    | toggleShow => rfl
  · intro hm
    cases e with
    | analyzeClick =>
      by_cases h : jsTrim s.password = "" <;> simp [clientStep, h] at hm
      subst hm
      rfl
    | setPassword p => simp [clientStep] at hm
    | analyzeOk r2 =>
      simp [clientStep] at hm
      subst hm
      rfl
    | analyzeErr => simp [clientStep] at hm
    | historyOk hs => simp [clientStep] at hm
    | clearClick => simp [clientStep, clearHistory] at hm
    | toggleShow => simp [clientStep] at hm

/-- Client state with a nonempty password, for the session id witness. -/
def sampleClientA : ClientState :=
  { password := "a", analysis := none, history := [], loading := false
    sessionId := "sid", showPassword := false }

/-- Claim C10 witness: the analyze request issued from a concrete state
carries that state's session id. -/
theorem session_id_spec_witness :
    requestSid (Request.analyze "a" "sid") = sampleClientA.sessionId :=
  (session_id_spec 0 "0.i" sampleClientA .analyzeClick
      (Request.analyze "a" "sid")).2.2.2.2.2 (by decide)

/-- Claim C10 counterexample: the suffix is not always nine characters.
JavaScript renders the possible random value one half in base 36 as the
three-character string consisting of zero, dot and the letter i, so the
substring taken from index 2 is the single character i and the generated
session id ends in a one-character suffix, not a nine-character one. -/
theorem session_id_nine_char_counterexample :
    generateSessionId 0 "0.i" = "session_0_i" ∧
    (jsSubstr "0.i" 2 9).length ≠ 9 :=
  ⟨rfl, by decide⟩

end PasswordTester

